import Mathlib

/-!
# Verification of the AV Coins backend (`src/main.py`)

A shallow embedding of the service in `src/main.py`: a document store with two
collections (`usercoin`, `session`), the helpers `_get_user_by_email`,
`_get_user_by_id`, `_create_or_get_session`, the dependency
`get_current_user`, and the handlers `login` (`POST /auth/login`),
`me` (`GET /me`) and `add_coins` (`POST /coins/add`).

Modelling conventions:
* Python `dict` documents become fixed-field structures; every document this
  code writes carries all the fields the code later reads, so the `.get`
  defaults of the source never fire on documents the service itself created.
* MongoDB `find_one` returns the first matching document in insertion order:
  collections are Lean lists, `find_one` is `List.find?`, `insert` appends,
  `update_one` rewrites the first match (`updateFirst`).
* `ObjectId` (from the external `bson` library) is a 12-byte id whose string
  form is 24 hex characters; modelled as a `Nat` together with the 24-hex-char
  rendering `oidString` and the parser `parseOid`, which fails exactly on
  strings that are not 24 hex characters (the `ObjectId(user_id)` constructor
  raising, caught by `_get_user_by_id`).
* Nondeterministic inputs are parameters: `secrets.token_hex(24)` becomes the
  `freshToken` argument, `datetime.now(timezone.utc)` the `now : Nat` argument.
* `db is None` (store unconfigured) is outside the store state; the model
  assumes a configured store, as every claim here does.
-/

/-- An HTTP error as `fastapi.HTTPException`: status code and detail string. -/
structure HTTPException where
  status_code : Nat
  detail : String
deriving Repr, DecidableEq

/-- A document of the `usercoin` collection, with the fields
`login`/`add_coins` write: store id, email, display name, coin balance and
the advisory `updated_at` timestamp (absent until the first update). -/
structure UserDoc where
  _id : Nat
  email : String
  name : String
  coins : Int
  updated_at : Option Nat
deriving Repr, DecidableEq

/-- A document of the `session` collection as written by
`_create_or_get_session` (src/main.py line 60): token, owner id as a string,
and the denormalised owner email. -/
structure SessionDoc where
  token : String
  user_id : String
  user_email : String
deriving Repr, DecidableEq

/-- The persistent store: the two collections the service uses, plus the
counter from which the store assigns fresh ids. -/
structure Store where
  usercoin : List UserDoc
  session : List SessionDoc
  nextOid : Nat
deriving Repr, DecidableEq

/-- The empty store the service starts from. -/
def Store.empty : Store := ⟨[], [], 0⟩

/-! ## List/string primitives -/

/-- MongoDB `update_one(filter, {"$set": ...})`: rewrite the first element
matching the filter, leave the rest alone. -/
def updateFirst (p : α → Bool) (f : α → α) : List α → List α
  | [] => []
  | x :: xs => if p x then f x :: xs else x :: updateFirst p f xs

/-- Python `email.split("@")[0]`: the characters before the first `'@'`
(the whole string when there is none). -/
def takeUntilAt : List Char → List Char
  | [] => []
  | c :: cs => if c = '@' then [] else c :: takeUntilAt cs

/-- Embeds `payload.email.split("@")[0]` (src/main.py line 132). -/
def localPart (email : String) : String := String.mk (takeUntilAt email.data)

/-- Python `s.replace("Bearer ", "")`: remove every non-overlapping
occurrence of the seven characters `"Bearer "`, scanning left to right. -/
def stripBearerChars : List Char → List Char
  | 'B' :: 'e' :: 'a' :: 'r' :: 'e' :: 'r' :: ' ' :: rest => stripBearerChars rest
  | c :: cs => c :: stripBearerChars cs
  | [] => []

/-- Drop leading whitespace characters. -/
def dropLeadingWs : List Char → List Char
  | [] => []
  | c :: cs => if c.isWhitespace then dropLeadingWs cs else c :: cs

/-- Python `s.strip()`: drop whitespace from both ends (ASCII whitespace;
the claims exercise no exotic Unicode whitespace). -/
def pyStripChars (l : List Char) : List Char :=
  ((dropLeadingWs ((dropLeadingWs l).reverse)).reverse)

/-- Embeds `authorization.replace("Bearer ", "").strip()` (src/main.py line 67):
every occurrence of `"Bearer "` removed, then surrounding whitespace
stripped. -/
def pyStripToken (a : String) : String :=
  String.mk (pyStripChars (stripBearerChars a.data))

/-- Modelled from the spec: the spec's own reading of credential
canonicalisation — "strips an optional scheme prefix and surrounding
whitespace", i.e. at most one *leading* `"Bearer "` is removed, then the
ends are trimmed. Stated only to compare with `pyStripToken`, which is what
line 67 of the source actually computes. -/
def specStripToken (a : String) : String :=
  let l := a.data
  let body := if ['B', 'e', 'a', 'r', 'e', 'r', ' '].isPrefixOf l then l.drop 7 else l
  String.mk (pyStripChars body)

/-! ## ObjectId -/

/-- A hex digit, upper or lower case (what `bson.ObjectId` accepts). -/
def isHexChar (c : Char) : Bool :=
  ('0' ≤ c && c ≤ '9') || ('a' ≤ c && c ≤ 'f') || ('A' ≤ c && c ≤ 'F')

/-- Validity of an id string: `bson.ObjectId(s)` succeeds exactly on 24-character hex strings. -/
def isValidOidString (s : String) : Bool :=
  s.length == 24 && s.data.all isHexChar

/-- Numeric value of a hex digit. -/
def hexDigitVal (c : Char) : Nat :=
  if '0' ≤ c && c ≤ '9' then c.toNat - '0'.toNat
  else if 'a' ≤ c && c ≤ 'f' then c.toNat - 'a'.toNat + 10
  else c.toNat - 'A'.toNat + 10

/-- Embeds `bson.ObjectId(s)`: the id value when `s` is well formed, `none`
otherwise (the constructor raising `InvalidId`). -/
def parseOid (s : String) : Option Nat :=
  if isValidOidString s then some (s.data.foldl (fun n c => 16 * n + hexDigitVal c) 0)
  else none

/-- One lowercase hex digit. -/
def hexChar (n : Nat) : Char :=
  if n < 10 then Char.ofNat ('0'.toNat + n) else Char.ofNat ('a'.toNat + n - 10)

/-- Embeds `str(object_id)`: the 24-character lowercase hex rendering of an id
(most significant digit first), as `str(user["_id"])` produces. -/
def oidString (oid : Nat) : String :=
  String.mk ((List.range 24).map (fun i => hexChar (oid / 16 ^ (23 - i) % 16)))

/-! ## Store primitives -/

/-- Modelled from the spec: `create_document("usercoin", ...)` comes from the
repository's `database` module, which is not under `src/`. Per §6 the store
supports "insert one" and "returns a stable, comparable identifier on
insert"; modelled as appending a document carrying exactly the supplied
fields under a fresh store-assigned id. -/
def create_usercoin_document (st : Store) (email name : String) (coins : Int) : Store :=
  { st with
    usercoin := st.usercoin ++
      [{ _id := st.nextOid, email := email, name := name, coins := coins, updated_at := none }],
    nextOid := st.nextOid + 1 }

/-- Modelled from the spec: `create_document("session", ...)` (same missing
`database` module, §6 "insert one"); the session's own store id is never
read back, so only the three supplied fields are kept. -/
def create_session_document (st : Store) (token user_id user_email : String) : Store :=
  { st with session := st.session ++ [{ token := token, user_id := user_id, user_email := user_email }] }

/-- Embeds `db["usercoin"].update_one` with a name/`updated_at` patch
(src/main.py line 137), pymongo semantics: rewrite the first match. -/
def update_user_name (st : Store) (oid : Nat) (name : String) (now : Nat) : Store :=
  { st with usercoin :=
      (updateFirst (fun u => u._id == oid)
        (fun u => { u with name := name, updated_at := some now }) st.usercoin) }

/-- Embeds `db["usercoin"].update_one` with a coins/`updated_at` patch
(src/main.py line 161), pymongo semantics: rewrite the first match. -/
def update_user_coins (st : Store) (oid : Nat) (coins : Int) (now : Nat) : Store :=
  { st with usercoin :=
      (updateFirst (fun u => u._id == oid)
        (fun u => { u with coins := coins, updated_at := some now }) st.usercoin) }

/-! ## Helpers (src/main.py lines 41-74) -/

/-- Embeds `_get_user_by_email` (lines 41-43): first `usercoin` document with the
given email. -/
def _get_user_by_email (st : Store) (email : String) : Option UserDoc :=
  st.usercoin.find? (fun u => u.email == email)

/-- Embeds `_get_user_by_id` (lines 46-52): parse the string id with `ObjectId`,
returning `None` when the constructor raises, else look the user up. -/
def _get_user_by_id (st : Store) (user_id : String) : Option UserDoc :=
  match parseOid user_id with
  | none => none
  | some oid => st.usercoin.find? (fun u => u._id == oid)

/-- Embeds `_create_or_get_session` (lines 55-61): reuse the session keyed by
`str(user["_id"])` when one exists, else persist a new one under the fresh
token (`secrets.token_hex(24)`, here the `freshToken` parameter). Returns
the token together with the store after the call. -/
def _create_or_get_session (st : Store) (user : UserDoc) (freshToken : String) : String × Store :=
  match st.session.find? (fun s => s.user_id == oidString user._id) with
  | some existing => (existing.token, st)
  | none =>
      (freshToken, create_session_document st freshToken (oidString user._id) user.email)

/-- Embeds `get_current_user` (lines 64-74). Python `if not authorization` is
truthiness: both a missing header and the empty string fail; then the token
is canonicalised by `pyStripToken`, the session looked up by exact match and
the owner resolved by `_get_user_by_id`. Performs no store write. -/
def get_current_user (st : Store) (authorization : Option String) : Except HTTPException UserDoc :=
  match authorization with
  | none => .error ⟨401, "Missing Authorization header"⟩
  | some a =>
    if a == "" then .error ⟨401, "Missing Authorization header"⟩
    else
      match st.session.find? (fun s => s.token == pyStripToken a) with
      | none => .error ⟨401, "Invalid token"⟩
      | some sess =>
        match _get_user_by_id st sess.user_id with
        | none => .error ⟨401, "User not found for token"⟩
        | some user => .ok user

/-! ## Handlers -/

/-- The body of `LoginResponse` (lines 28-32). -/
structure LoginResponse where
  token : String
  email : String
  name : String
  coins : Int
deriving Repr, DecidableEq

/-- Python `payload.name or payload.email.split("@")[0]` (line 132): `or`
takes the fallback when `payload.name` is `None` **or** the empty string
(falsy). -/
def pyOrElse (name? : Option String) (fallback : String) : String :=
  match name? with
  | none => fallback
  | some n => if n == "" then fallback else n

/-- Python `payload.name and payload.name != user.get("name")` (line 136):
the update fires only for a *truthy* (present, non-empty) supplied name that
differs from the stored one. -/
def nameUpdateNeeded (name? : Option String) (stored : String) : Bool :=
  match name? with
  | none => false
  | some n => !(n == "") && !(n == stored)

/-- Lines 130-134: look the user up by email; if absent, insert one with
`coins = 0` and the falsy-defaulted name, then re-fetch. -/
def login_lookup_or_create (st : Store) (email : String) (name? : Option String) :
    Option UserDoc × Store :=
  match _get_user_by_email st email with
  | some u => (some u, st)
  | none =>
    let name := pyOrElse name? (localPart email)
    let st' := create_usercoin_document st email name 0
    (_get_user_by_email st' email, st')

/-- Lines 136-138: when the supplied name is truthy and differs from the
stored one, update name and `updated_at`, then re-fetch. -/
def login_maybe_update_name (st : Store) (email : String) (name? : Option String)
    (user : UserDoc) (now : Nat) : Option UserDoc × Store :=
  if nameUpdateNeeded name? user.name then
    let st' := update_user_name st user._id (name?.getD "") now
    (_get_user_by_email st' email, st')
  else (some user, st)

/-- Embeds `login` (`POST /auth/login`, lines 125-142). Here `none` models the Python
`AttributeError` a `None` re-fetch would raise (`login_total` below proves it
never happens). Returns the response and the store after the call. -/
def login (st : Store) (email : String) (name? : Option String)
    (freshToken : String) (now : Nat) : Option (LoginResponse × Store) :=
  match login_lookup_or_create st email name? with
  | (none, _) => none
  | (some user, st1) =>
    match login_maybe_update_name st1 email name? user now with
    | (none, _) => none
    | (some user2, st2) =>
      let ts := _create_or_get_session st2 user2 freshToken
      some ({ token := ts.1, email := user2.email, name := user2.name, coins := user2.coins }, ts.2)

/-- Embeds `me` (`GET /me`, lines 145-148): authenticate, echo the canonicalised
token and the user's stored fields; no write, so the store is returned
unchanged. -/
def me_endpoint (st : Store) (auth : Option String) :
    Except HTTPException LoginResponse × Store :=
  match get_current_user st auth with
  | .error e => (.error e, st)
  | .ok user =>
    let token := match auth with
      | some a => if a == "" then "" else pyStripToken a
      | none => ""
    (.ok { token := token, email := user.email, name := user.name, coins := user.coins }, st)

/-- The ledger core of `add_coins` (lines 153-162), given the already
authenticated user document: zero short-circuits with no write; amounts of
magnitude over 10000 fail with 400; otherwise the clamped candidate is
persisted. Returns the result and the store after the call. -/
def add_coins (st : Store) (user : UserDoc) (amount : Int) (now : Nat) :
    Except HTTPException Int × Store :=
  let amt := amount
  if amt = 0 then (.ok user.coins, st)
  else if 10000 < amt.natAbs then (.error ⟨400, "Amount too large"⟩, st)
  else
    let candidate := user.coins + amt
    let new_total := if candidate < 0 then 0 else candidate
    (.ok new_total, update_user_coins st user._id new_total now)

/-- Embeds `add_coins` (`POST /coins/add`, lines 151-162) with its
`Depends(get_current_user)`: authenticate, then run the ledger core. -/
def add_coins_endpoint (st : Store) (auth : Option String) (amount : Int) (now : Nat) :
    Except HTTPException Int × Store :=
  match get_current_user st auth with
  | .error e => (.error e, st)
  | .ok user => add_coins st user amount now

/-- A run of ledger calls for one user id, each re-fetching the then-current
document as `Depends(get_current_user)` does (the id of an authenticated
user is stable across calls); a vanished user ends the run's effects. -/
def run_adjusts (st : Store) (oid : Nat) (now : Nat) : List Int → Store
  | [] => st
  | d :: ds =>
    match st.usercoin.find? (fun u => u._id == oid) with
    | none => run_adjusts st oid now ds
    | some u => run_adjusts (add_coins st u d now).2 oid now ds

/-- The states the store can reach from empty through the service's
mutating endpoints (`/auth/login` and `/coins/add`; `/`, `/api/hello`,
`/test` and `/me` perform no store write). -/
inductive Reachable : Store → Prop where
  | init : Reachable Store.empty
  | login_step {st st' : Store} {e : String} {n? : Option String} {tok : String}
      {now : Nat} {r : LoginResponse} :
      Reachable st → login st e n? tok now = some (r, st') → Reachable st'
  | add_coins_step {st st' : Store} {auth : Option String} {amt : Int} {now : Nat}
      {res : Except HTTPException Int} :
      Reachable st → add_coins_endpoint st auth amt now = (res, st') → Reachable st'

/-- The document line 133 inserts on the creation path: `coins = 0`,
name falsy-defaulted to the email's local part, fresh store id. -/
def newUserDoc (st : Store) (e : String) (n? : Option String) : UserDoc :=
  { _id := st.nextOid, email := e, name := pyOrElse n? (localPart e),
    coins := 0, updated_at := none }

/-! ## Concrete fixtures for witnesses and counterexamples -/

/-- A stored user for concrete runs. -/
def fixtureUser : UserDoc :=
  { _id := 0, email := "a@x.com", name := "a", coins := 5, updated_at := none }

/-- A store holding `fixtureUser` and a session for them with token `"ab"`. -/
def fixtureStore : Store :=
  { usercoin := [fixtureUser],
    session := [{ token := "ab", user_id := oidString 0, user_email := "a@x.com" }],
    nextOid := 1 }

/-- A store holding one user with balance 30 (the spec's clamping scenario). -/
def balanceStore : Store :=
  { usercoin := [{ _id := 0, email := "u@x.com", name := "u", coins := 30, updated_at := none }],
    session := [], nextOid := 1 }

/-- The store after a first login of `"a@x.com"` with token `"t1"` on the
empty store. -/
def loginOnceStore : Store :=
  { usercoin := [{ _id := 0, email := "a@x.com", name := "a", coins := 0, updated_at := none }],
    session := [{ token := "t1", user_id := oidString 0, user_email := "a@x.com" }],
    nextOid := 1 }

/-- A store whose only session names a malformed user id. -/
def orphanStore : Store :=
  { usercoin := [], session := [{ token := "ab", user_id := "zzz", user_email := "e" }], nextOid := 0 }

/-! ## Generic lemmas about the store primitives -/

theorem mem_updateFirst {p : α → Bool} {f : α → α} {l : List α} {x : α}
    (hx : x ∈ updateFirst p f l) : x ∈ l ∨ ∃ y, y ∈ l ∧ x = f y := by
  induction l with
  | nil => simp [updateFirst] at hx
  | cons a as ih =>
    simp only [updateFirst] at hx
    by_cases h : p a
    · simp only [h, if_pos] at hx
      rcases List.mem_cons.mp hx with h1 | h1
      · exact Or.inr ⟨a, List.mem_cons_self a as, h1⟩
      · exact Or.inl (List.mem_cons_of_mem _ h1)
    · simp only [h, if_neg, Bool.false_eq_true, not_false_iff] at hx
      rcases List.mem_cons.mp hx with h1 | h1
      · exact Or.inl (h1 ▸ List.mem_cons_self a as)
      · rcases ih h1 with h2 | ⟨y, hy, h3⟩
        · exact Or.inl (List.mem_cons_of_mem _ h2)
        · exact Or.inr ⟨y, List.mem_cons_of_mem _ hy, h3⟩

theorem find?_updateFirst {p : α → Bool} {f : α → α}
    (hf : ∀ a, p a = true → p (f a) = true) (l : List α) :
    (updateFirst p f l).find? p = (l.find? p).map f := by
  induction l with
  | nil => simp [updateFirst]
  | cons a as ih =>
    by_cases h : p a
    · simp [updateFirst, h, List.find?_cons_of_pos _ (hf a h), List.find?_cons_of_pos _ h]
    · simp only [updateFirst, h, if_neg, Bool.false_eq_true, not_false_iff]
      rw [List.find?_cons_of_neg _ (by simp [h]), List.find?_cons_of_neg _ (by simp [h]), ih]

theorem find?_updateFirst_of_preserve (p : α → Bool) (f : α → α) {q : α → Bool}
    (hq : ∀ a, q (f a) = q a) {l : List α} {u : α} (hu : l.find? q = some u) :
    ∃ v, (updateFirst p f l).find? q = some v ∧ (v = u ∨ v = f u) := by
  induction l with
  | nil => simp at hu
  | cons a as ih =>
    by_cases hqa : q a
    · rw [List.find?_cons_of_pos _ hqa] at hu
      have hau : a = u := by injection hu
      by_cases hpa : p a
      · refine ⟨f a, ?_, Or.inr (by rw [hau])⟩
        simp only [updateFirst, hpa, if_pos]
        have hqfa : q (f a) = true := by rw [hq a]; exact hqa
        exact List.find?_cons_of_pos as hqfa
      · refine ⟨a, ?_, Or.inl hau⟩
        simp only [updateFirst, hpa, if_neg, Bool.false_eq_true, not_false_iff]
        exact List.find?_cons_of_pos (updateFirst p f as) hqa
    · rw [List.find?_cons_of_neg _ hqa] at hu
      by_cases hpa : p a
      · refine ⟨u, ?_, Or.inl rfl⟩
        simp only [updateFirst, hpa, if_pos]
        have hqfa : ¬ q (f a) = true := by rw [hq a]; exact hqa
        rw [List.find?_cons_of_neg as hqfa]
        exact hu
      · obtain ⟨v, hv, hvu⟩ := ih hu
        refine ⟨v, ?_, hvu⟩
        simp only [updateFirst, hpa, if_neg, Bool.false_eq_true, not_false_iff]
        rw [List.find?_cons_of_neg (updateFirst p f as) hqa]
        exact hv

theorem find?_append_right_of_none {p : α → Bool} {l : List α} (h : l.find? p = none)
    {a : α} (ha : p a = true) : (l ++ [a]).find? p = some a := by
  rw [List.find?_append, h]
  simp [ha]

/-! ## Claim theorems: ledger bounds, zero no-op, malformed ids -/

/-- C3: `add_coins` fails (with the 400 "Amount too large" error, the
`InvalidArgument` of the spec) exactly when `|amount| > 10000` — so an
amount of magnitude exactly 10000 succeeds — and on that failure the store,
hence the user's balance and record, is unchanged: the bound check precedes
any write. -/
theorem add_coins_invalid_argument_iff (st : Store) (u : UserDoc) (d : Int) (now : Nat) :
    ((∃ e, (add_coins st u d now).1 = .error e) ↔ 10000 < d.natAbs) ∧
    (∀ e, (add_coins st u d now).1 = .error e →
      e = ⟨400, "Amount too large"⟩ ∧ (add_coins st u d now).2 = st) := by
  unfold add_coins
  by_cases h0 : d = 0
  · subst h0; simp
  · by_cases hb : 10000 < d.natAbs
    · simp [h0, hb]
    · simp [h0, hb]

/-- C6: a zero-amount `add_coins` call on an authenticated user returns the
currently stored balance and performs no write at all — the store after the
call is identical to the store before it. -/
theorem add_coins_zero_is_noop (st : Store) (auth : Option String) (now : Nat) (u : UserDoc)
    (h : get_current_user st auth = .ok u) :
    add_coins_endpoint st auth 0 now = (.ok u.coins, st) := by
  unfold add_coins_endpoint
  rw [h]
  unfold add_coins
  simp

/-- Witness for C6 at a concrete store: a zero delta for the fixture user
(balance 5) answers 5 and leaves the store untouched. -/
theorem add_coins_zero_is_noop_witness :
    add_coins_endpoint fixtureStore (some "Bearer ab") 0 7 = (.ok 5, fixtureStore) :=
  add_coins_zero_is_noop fixtureStore (some "Bearer ab") 7 fixtureUser (by rfl)

/-- C10: `_get_user_by_id` is total on malformed identifiers — any string
that is not a well-formed `ObjectId` yields `none` rather than an exception
— and a session bound to such an id makes `get_current_user` fail with the
401 "User not found for token" error instead of crashing. -/
theorem malformed_oid_safe (st : Store) (uid : String) (h : isValidOidString uid = false) :
    _get_user_by_id st uid = none ∧
    (∀ a s, a ≠ "" →
      st.session.find? (fun x => x.token == pyStripToken a) = some s →
      s.user_id = uid →
      get_current_user st (some a) = .error ⟨401, "User not found for token"⟩) := by
  have hp : parseOid uid = none := by unfold parseOid; rw [h]; rfl
  refine ⟨by unfold _get_user_by_id; rw [hp], ?_⟩
  intro a s ha hfind hsid
  have ha2 : (a == "") = false := beq_eq_false_iff_ne.mpr ha
  simp only [get_current_user, ha2, Bool.false_eq_true, if_false, hfind, _get_user_by_id, hsid, hp]

/-- Witness for C10: the orphan fixture's session points at `"zzz"`, which
is no `ObjectId`; lookup yields `none` and authentication answers 401. -/
theorem malformed_oid_safe_witness :
    _get_user_by_id orphanStore "zzz" = none ∧
    get_current_user orphanStore (some "ab") = .error ⟨401, "User not found for token"⟩ := by
  have H := malformed_oid_safe orphanStore "zzz" (by rfl)
  exact ⟨H.1, H.2 "ab" ⟨"ab", "zzz", "e"⟩ (by decide) (by rfl) rfl⟩

/-- C5: `get_current_user` fails — always with status 401 (`Unauthorized`) —
in exactly three situations: no (or empty, Python-falsy) credential, no
session whose token matches the stripped credential, or a matched session
whose `user_id` resolves to no user (orphaned session). The `me` handler
built on it performs no store write, so the orphaned session is left in
place, not repaired or deleted. -/
theorem get_current_user_unauthorized_iff (st : Store) (auth : Option String) :
    ((∃ e, get_current_user st auth = .error e) ↔
      (auth = none ∨ auth = some "" ∨
        (∃ a, auth = some a ∧ a ≠ "" ∧
          (st.session.find? (fun s => s.token == pyStripToken a) = none ∨
            (∃ s, st.session.find? (fun s => s.token == pyStripToken a) = some s ∧
              _get_user_by_id st s.user_id = none))))) ∧
    (∀ e, get_current_user st auth = .error e → e.status_code = 401) ∧
    (me_endpoint st auth).2 = st := by
  have me2 : (me_endpoint st auth).2 = st := by
    unfold me_endpoint
    cases h : get_current_user st auth with
    | error e => rfl
    | ok u => rfl
  cases auth with
  | none =>
    have hval : get_current_user st none = .error ⟨401, "Missing Authorization header"⟩ := rfl
    refine ⟨⟨fun _ => Or.inl rfl, fun _ => ⟨_, hval⟩⟩, ?_, me2⟩
    intro e he
    rw [hval] at he
    injection he with he
    rw [← he]
  | some a =>
    by_cases ha : a = ""
    · subst ha
      have hval : get_current_user st (some "") = .error ⟨401, "Missing Authorization header"⟩ := rfl
      refine ⟨⟨fun _ => Or.inr (Or.inl rfl), fun _ => ⟨_, hval⟩⟩, ?_, me2⟩
      intro e he
      rw [hval] at he
      injection he with he
      rw [← he]
    · have ha2 : (a == "") = false := beq_eq_false_iff_ne.mpr ha
      cases hfind : st.session.find? (fun s => s.token == pyStripToken a) with
      | none =>
        have hval : get_current_user st (some a) = .error ⟨401, "Invalid token"⟩ := by
          simp only [get_current_user, ha2, Bool.false_eq_true, if_false, hfind]
        refine ⟨⟨fun _ => Or.inr (Or.inr ⟨a, rfl, ha, Or.inl hfind⟩), fun _ => ⟨_, hval⟩⟩, ?_, me2⟩
        intro e he
        rw [hval] at he
        injection he with he
        rw [← he]
      | some s =>
        cases hres : _get_user_by_id st s.user_id with
        | none =>
          have hval : get_current_user st (some a) = .error ⟨401, "User not found for token"⟩ := by
            simp only [get_current_user, ha2, Bool.false_eq_true, if_false, hfind, hres]
          refine ⟨⟨fun _ => Or.inr (Or.inr ⟨a, rfl, ha, Or.inr ⟨s, hfind, hres⟩⟩),
            fun _ => ⟨_, hval⟩⟩, ?_, me2⟩
          intro e he
          rw [hval] at he
          injection he with he
          rw [← he]
        | some u =>
          have hval : get_current_user st (some a) = .ok u := by
            simp only [get_current_user, ha2, Bool.false_eq_true, if_false, hfind, hres]
          refine ⟨⟨?_, ?_⟩, ?_, me2⟩
          · rintro ⟨e, he⟩
            rw [hval] at he
            cases he
          · rintro (h | h | ⟨a2, ha3, hne, hcase⟩)
            · cases h
            · exact absurd (by injection h) ha
            · have haa : a = a2 := by injection ha3
              subst haa
              rcases hcase with h1 | ⟨s2, hs2, hres2⟩
              · rw [hfind] at h1
                cases h1
              · rw [hfind] at hs2
                have hss : s2 = s := by injection hs2 with hs2; rw [hs2]
                subst hss
                rw [hres] at hres2
                cases hres2
          · intro e he
            rw [hval] at he
            cases he

/-! ## Anatomy of `login` -/

theorem lookup_or_create_fst (st : Store) (e : String) (n? : Option String)
    {u : UserDoc} {st1 : Store} (h : login_lookup_or_create st e n? = (some u, st1)) :
    _get_user_by_email st1 e = some u := by
  unfold login_lookup_or_create at h
  cases hf : _get_user_by_email st e with
  | some v =>
    rw [hf] at h
    injection h with h1 h2
    rw [← h2, hf, h1]
  | none =>
    rw [hf] at h
    injection h with h1 h2
    rw [← h2]
    exact h1

theorem maybe_update_fst (st : Store) (e : String) (n? : Option String)
    (user : UserDoc) (now : Nat) {u2 : UserDoc} {st2 : Store}
    (h : login_maybe_update_name st e n? user now = (some u2, st2))
    (hu : _get_user_by_email st e = some user) :
    _get_user_by_email st2 e = some u2 := by
  unfold login_maybe_update_name at h
  by_cases hn : nameUpdateNeeded n? user.name = true
  · rw [if_pos hn] at h
    injection h with h1 h2
    rw [← h2]
    exact h1
  · rw [if_neg hn] at h
    injection h with h1 h2
    rw [← h2, hu]
    exact h1

theorem create_or_get_session_usercoin (st : Store) (u : UserDoc) (tok : String) :
    ((_create_or_get_session st u tok).2).usercoin = st.usercoin := by
  unfold _create_or_get_session
  cases h : st.session.find? (fun s => s.user_id == oidString u._id) with
  | some ex => rfl
  | none => rfl

theorem create_or_get_session_finds (st : Store) (u : UserDoc) (tok : String) :
    ∃ s, ((_create_or_get_session st u tok).2).session.find?
        (fun x => x.user_id == oidString u._id) = some s ∧
      s.token = (_create_or_get_session st u tok).1 := by
  unfold _create_or_get_session
  cases h : st.session.find? (fun x => x.user_id == oidString u._id) with
  | some ex => exact ⟨ex, by rw [h], rfl⟩
  | none =>
    refine ⟨⟨tok, oidString u._id, u.email⟩, ?_, rfl⟩
    unfold create_session_document
    exact find?_append_right_of_none h (by simp)

theorem login_unfold {st : Store} {e : String} {n? : Option String} {tok : String}
    {now : Nat} {r : LoginResponse} {st' : Store}
    (h : login st e n? tok now = some (r, st')) :
    ∃ user st1 user2 st2,
      login_lookup_or_create st e n? = (some user, st1) ∧
      login_maybe_update_name st1 e n? user now = (some user2, st2) ∧
      r = ⟨(_create_or_get_session st2 user2 tok).1, user2.email, user2.name, user2.coins⟩ ∧
      st' = (_create_or_get_session st2 user2 tok).2 := by
  unfold login at h
  cases h1 : login_lookup_or_create st e n? with
  | mk user? st1 =>
    rw [h1] at h
    cases user? with
    | none => simp at h
    | some user =>
      dsimp only [] at h
      cases h2 : login_maybe_update_name st1 e n? user now with
      | mk user2? st2 =>
        rw [h2] at h
        cases user2? with
        | none => simp at h
        | some user2 =>
          dsimp only [] at h
          simp only [Option.some.injEq, Prod.mk.injEq] at h
          exact ⟨user, st1, user2, st2, rfl, h2, h.1.symm, h.2.symm⟩

theorem login_establishes {st : Store} {e : String} {n? : Option String} {tok : String}
    {now : Nat} {r : LoginResponse} {st' : Store}
    (h : login st e n? tok now = some (r, st')) :
    ∃ u s, _get_user_by_email st' e = some u ∧
      st'.session.find? (fun x => x.user_id == oidString u._id) = some s ∧
      s.token = r.token := by
  obtain ⟨user, st1, user2, st2, h1, h2, hr, hst⟩ := login_unfold h
  have hu2 : _get_user_by_email st2 e = some user2 :=
    maybe_update_fst st1 e n? user now h2 (lookup_or_create_fst st e n? h1)
  obtain ⟨s, hs, hstok⟩ := create_or_get_session_finds st2 user2 tok
  refine ⟨user2, s, ?_, ?_, ?_⟩
  · rw [hst]
    have hcoin := create_or_get_session_usercoin st2 user2 tok
    unfold _get_user_by_email at hu2 ⊢
    rw [hcoin]
    exact hu2
  · rw [hst]
    exact hs
  · rw [hr]
    exact hstok

/-- C4: logging in twice with the same email (and the same, unchanged
optional display name) returns the same token both times:
`_create_or_get_session` finds the session keyed by the user's id and
returns its stored token without minting or persisting a new one, whatever
fresh token material the second call had available. -/
theorem login_twice_same_token (st : Store) (e : String) (n? : Option String)
    (tok1 tok2 : String) (now1 now2 : Nat) (r1 r2 : LoginResponse) (st1 st2 : Store)
    (h1 : login st e n? tok1 now1 = some (r1, st1))
    (h2 : login st1 e n? tok2 now2 = some (r2, st2)) :
    r2.token = r1.token := by
  obtain ⟨u, s, hu, hs, hstok⟩ := login_establishes h1
  obtain ⟨user, st1x, user2, st2x, h1x, h2x, hr2, hst2⟩ := login_unfold h2
  have e1 : login_lookup_or_create st1 e n? = (some u, st1) := by
    unfold login_lookup_or_create
    rw [hu]
  rw [e1] at h1x
  injection h1x with ha hb
  have hau : u = user := by injection ha
  subst hau
  subst hb
  unfold login_maybe_update_name at h2x
  by_cases hn : nameUpdateNeeded n? u.name = true
  · rw [if_pos hn] at h2x
    injection h2x with hc hd
    have hq : ∀ v : UserDoc,
        (({ v with name := n?.getD "", updated_at := some now2 } : UserDoc).email == e)
          = (v.email == e) := fun v => rfl
    have hu' : List.find? (fun w => w.email == e) st1.usercoin = some u := hu
    obtain ⟨v, hv, hvu⟩ := find?_updateFirst_of_preserve
      (fun w => w._id == u._id)
      (fun w => { w with name := n?.getD "", updated_at := some now2 }) hq hu'
    have hc' : List.find? (fun w => w.email == e)
        (updateFirst (fun w => w._id == u._id)
          (fun w => { w with name := n?.getD "", updated_at := some now2 })
          st1.usercoin) = some user2 := hc
    rw [hv] at hc'
    have hvu2 : v = user2 := by injection hc'
    have hid : user2._id = u._id := by
      rw [← hvu2]
      rcases hvu with h5 | h5
      · rw [h5]
      · rw [h5]
    have hsession : st2x.session = st1.session := by rw [← hd]; rfl
    have hfirst : (_create_or_get_session st2x user2 tok2).1 = s.token := by
      unfold _create_or_get_session
      rw [hsession, hid, hs]
    rw [hr2]
    rw [show (LoginResponse.mk (_create_or_get_session st2x user2 tok2).1
      user2.email user2.name user2.coins).token
        = (_create_or_get_session st2x user2 tok2).1 from rfl]
    rw [hfirst, hstok]
  · rw [if_neg hn] at h2x
    injection h2x with hc hd
    have hu2 : user2 = u := by injection hc with hc; rw [← hc]
    have hfirst : (_create_or_get_session st2x user2 tok2).1 = s.token := by
      unfold _create_or_get_session
      rw [← hd, hu2, hs]
    rw [hr2]
    rw [show (LoginResponse.mk (_create_or_get_session st2x user2 tok2).1
      user2.email user2.name user2.coins).token
        = (_create_or_get_session st2x user2 tok2).1 from rfl]
    rw [hfirst, hstok]

/-- Witness for C4: on the empty store, first login of `"a@x.com"` mints
token `"t1"`; a second login with fresh material `"t2"` still answers
`"t1"` and leaves the store unchanged. -/
theorem login_twice_same_token_witness : ("t1" : String) = "t1" :=
  login_twice_same_token Store.empty "a@x.com" none "t1" "t2" 0 1
    ⟨"t1", "a@x.com", "a", 0⟩ ⟨"t1", "a@x.com", "a", 0⟩ loginOnceStore loginOnceStore
    (by rfl) (by rfl)


theorem nameUpdateNeeded_pyOrElse (n? : Option String) (fb : String) :
    nameUpdateNeeded n? (pyOrElse n? fb) = false := by
  cases n? with
  | none => rfl
  | some n =>
    by_cases h : n = ""
    · subst h; rfl
    · simp [nameUpdateNeeded, pyOrElse, h]

theorem login_usercoin_cases {st : Store} {e : String} {n? : Option String} {tok : String}
    {now : Nat} {r : LoginResponse} {st' : Store}
    (h : login st e n? tok now = some (r, st')) :
    st'.usercoin = st.usercoin ∨
    (_get_user_by_email st e = none ∧
      st'.usercoin = st.usercoin ++ [newUserDoc st e n?]) ∨
    (∃ u n, _get_user_by_email st e = some u ∧ n? = some n ∧ n ≠ "" ∧ n ≠ u.name ∧
      st'.usercoin = updateFirst (fun v => v._id == u._id)
        (fun v => { v with name := n, updated_at := some now }) st.usercoin) := by
  obtain ⟨user, st1, user2, st2, h1, h2, hr, hst⟩ := login_unfold h
  have hst'u : st'.usercoin = st2.usercoin := by
    rw [hst]
    exact create_or_get_session_usercoin st2 user2 tok
  unfold login_lookup_or_create at h1
  cases hf : _get_user_by_email st e with
  | some v =>
    rw [hf] at h1
    injection h1 with h1a h1b
    have hv : v = user := by injection h1a
    subst hv
    subst h1b
    unfold login_maybe_update_name at h2
    by_cases hn : nameUpdateNeeded n? v.name = true
    · rw [if_pos hn] at h2
      injection h2 with h2a h2b
      cases n? with
      | none => simp [nameUpdateNeeded] at hn
      | some n =>
        simp only [nameUpdateNeeded, Bool.and_eq_true, Bool.not_eq_true', beq_eq_false_iff_ne,
          ne_eq] at hn
        refine Or.inr (Or.inr ⟨v, n, rfl, rfl, hn.1, hn.2, ?_⟩)
        rw [hst'u, ← h2b]
        rfl
    · rw [if_neg hn] at h2
      injection h2 with h2a h2b
      exact Or.inl (by rw [hst'u, ← h2b])
  | none =>
    rw [hf] at h1
    injection h1 with h1a h1b
    have hnew : _get_user_by_email (create_usercoin_document st e (pyOrElse n? (localPart e)) 0) e
        = some (newUserDoc st e n?) := by
      unfold _get_user_by_email at hf ⊢
      unfold create_usercoin_document
      exact find?_append_right_of_none hf (by simp)
    rw [hnew] at h1a
    have huser : newUserDoc st e n? = user := by injection h1a
    rw [← huser] at h2
    unfold login_maybe_update_name at h2
    have hno : nameUpdateNeeded n? (newUserDoc st e n?).name = false :=
      nameUpdateNeeded_pyOrElse n? (localPart e)
    rw [hno] at h2
    simp only [Bool.false_eq_true, if_false, Prod.mk.injEq] at h2
    refine Or.inr (Or.inl ⟨rfl, ?_⟩)
    rw [hst'u, ← h2.2, ← h1b]
    rfl

/-- C9: one `login` call performs at most one insert or at most one update
on the user collection and never both: either the collection is untouched
(existing user, no name change), or — the user being absent — exactly the
new `coins = 0` document is appended with no name-update write, or — the
user existing and a non-empty differing name being supplied — exactly one
first-match update is applied. Everything else the call does to users is a
re-read. -/
theorem login_single_write (st : Store) (e : String) (n? : Option String) (tok : String)
    (now : Nat) (r : LoginResponse) (st' : Store)
    (h : login st e n? tok now = some (r, st')) :
    st'.usercoin = st.usercoin ∨
    (_get_user_by_email st e = none ∧
      st'.usercoin = st.usercoin ++ [newUserDoc st e n?]) ∨
    (∃ u n, _get_user_by_email st e = some u ∧ n? = some n ∧ n ≠ "" ∧ n ≠ u.name ∧
      st'.usercoin = updateFirst (fun v => v._id == u._id)
        (fun v => { v with name := n, updated_at := some now }) st.usercoin) :=
  login_usercoin_cases h

/-- Witness for C9 on the creation path: the first login on the empty store
appends exactly one `coins = 0` document and performs no update. -/
theorem login_single_write_witness :
    loginOnceStore.usercoin = Store.empty.usercoin ∨
    (_get_user_by_email Store.empty "a@x.com" = none ∧
      loginOnceStore.usercoin = Store.empty.usercoin ++ [newUserDoc Store.empty "a@x.com" none]) ∨
    (∃ u n, _get_user_by_email Store.empty "a@x.com" = some u ∧ none = some n ∧ n ≠ "" ∧
      n ≠ u.name ∧
      loginOnceStore.usercoin = updateFirst (fun v => v._id == u._id)
        (fun v => { v with name := n, updated_at := some (0 : Nat) }) Store.empty.usercoin) :=
  login_single_write Store.empty "a@x.com" none "t1" 0 ⟨"t1", "a@x.com", "a", 0⟩
    loginOnceStore (by rfl)

theorem add_coins_endpoint_shape {st : Store} {auth : Option String} {amt : Int} {now : Nat}
    {res : Except HTTPException Int} {st' : Store}
    (h : add_coins_endpoint st auth amt now = (res, st')) :
    st'.usercoin = st.usercoin ∨
    ∃ oid c, (0 : Int) ≤ c ∧ st'.usercoin = updateFirst (fun v => v._id == oid)
      (fun v => { v with coins := c, updated_at := some now }) st.usercoin := by
  unfold add_coins_endpoint at h
  cases hg : get_current_user st auth with
  | error e =>
    rw [hg] at h
    injection h with h1 h2
    exact Or.inl (by rw [← h2])
  | ok user =>
    rw [hg] at h
    simp only [add_coins] at h
    by_cases h0 : amt = 0
    · rw [if_pos h0] at h
      injection h with h1 h2
      exact Or.inl (by rw [← h2])
    · rw [if_neg h0] at h
      by_cases hb : 10000 < amt.natAbs
      · rw [if_pos hb] at h
        injection h with h1 h2
        exact Or.inl (by rw [← h2])
      · rw [if_neg hb] at h
        injection h with h1 h2
        refine Or.inr ⟨user._id, if user.coins + amt < 0 then 0 else user.coins + amt, ?_, ?_⟩
        · by_cases hc : user.coins + amt < 0
          · rw [if_pos hc]
          · rw [if_neg hc]
            exact not_lt.mp hc
        · rw [← h2]
          rfl

/-- C1: in every reachable store state, every user record carries a
non-negative coin balance: users are created with `coins = 0`, the name
update writes no balance, and `add_coins` only ever persists the clamped
(hence non-negative) candidate. -/
theorem reachable_coins_nonneg (st : Store) (h : Reachable st) :
    ∀ u ∈ st.usercoin, 0 ≤ u.coins := by
  induction h with
  | init =>
    intro u hu
    simp [Store.empty] at hu
  | login_step hr hlog ih =>
    intro u hu
    rcases login_usercoin_cases hlog with hcase | ⟨_, hcase⟩ | ⟨v, n, _, _, _, _, hcase⟩
    · rw [hcase] at hu
      exact ih u hu
    · rw [hcase] at hu
      rcases List.mem_append.mp hu with h1 | h1
      · exact ih u h1
      · have h2 := List.mem_singleton.mp h1
        rw [h2]
        exact le_refl 0
    · rw [hcase] at hu
      rcases mem_updateFirst hu with h1 | ⟨y, hy, h1⟩
      · exact ih u h1
      · rw [h1]
        exact ih y hy
  | add_coins_step hr hstep ih =>
    intro u hu
    rcases add_coins_endpoint_shape hstep with hcase | ⟨oid, c, hc, hcase⟩
    · rw [hcase] at hu
      exact ih u hu
    · rw [hcase] at hu
      rcases mem_updateFirst hu with h1 | ⟨y, hy, h1⟩
      · exact ih u h1
      · rw [h1]
        exact hc

/-- Witness for C1: the store reached by one login from empty contains only
the created user, whose balance 0 the invariant bounds below by 0. -/
theorem reachable_coins_nonneg_witness :
    (0 : Int) ≤
      ({ _id := 0, email := "a@x.com", name := "a", coins := 0, updated_at := none } : UserDoc).coins :=
  reachable_coins_nonneg loginOnceStore
    (@Reachable.login_step Store.empty loginOnceStore "a@x.com" none "t1" 0
      ⟨"t1", "a@x.com", "a", 0⟩ Reachable.init (by rfl))
    { _id := 0, email := "a@x.com", name := "a", coins := 0, updated_at := none }
    (by simp [loginOnceStore])

/-- C2: applying a sequence of in-bound deltas through the ledger, each call
re-reading the then-current record, yields exactly the step-by-step clamped
fold `b_i = max 0 (b_(i-1) + d_i)` of the initial balance — clamping is
progressive, not applied once at the end. A single call persists
`max 0 (balance + delta)`; in particular a `-50` delta at balance 30 ends
at 0, not `-20` (see the witness). -/
theorem add_coins_fold_clamp (st : Store) (oid : Nat) (now : Nat) (ds : List Int) (u : UserDoc)
    (hu : st.usercoin.find? (fun v => v._id == oid) = some u)
    (hb : (0 : Int) ≤ u.coins)
    (hds : ∀ d ∈ ds, d.natAbs ≤ 10000) :
    ∃ u', (run_adjusts st oid now ds).usercoin.find? (fun v => v._id == oid) = some u' ∧
      u'.coins = ds.foldl (fun b d => max 0 (b + d)) u.coins := by
  induction ds generalizing st u with
  | nil => exact ⟨u, hu, rfl⟩
  | cons d ds ih =>
    have hido : u._id = oid := by
      have := List.find?_some hu
      simpa using this
    unfold run_adjusts
    rw [hu]
    dsimp only []
    by_cases h0 : d = 0
    · subst h0
      have hzero : (add_coins st u 0 now).2 = st := rfl
      rw [hzero, List.foldl_cons]
      have hfold : max 0 (u.coins + 0) = u.coins := by
        rw [add_zero]
        exact max_eq_right hb
      rw [hfold]
      exact ih st u hu hb (fun x hx => hds x (List.mem_cons_of_mem _ hx))
    · have hbnd : d.natAbs ≤ 10000 := hds d (List.mem_cons_self _ _)
      have hnb : ¬ 10000 < d.natAbs := not_lt.mpr hbnd
      obtain ⟨c, hcdef⟩ : ∃ c : Int, (if u.coins + d < 0 then 0 else u.coins + d) = c := ⟨_, rfl⟩
      have hclamp : c = max 0 (u.coins + d) := by
        rw [← hcdef]
        by_cases hc : u.coins + d < 0
        · rw [if_pos hc, max_eq_left (le_of_lt hc)]
        · rw [if_neg hc, max_eq_right (not_lt.mp hc)]
      have hsnd : (add_coins st u d now).2 = update_user_coins st u._id c now := by
        simp only [add_coins]
        rw [if_neg h0, if_neg hnb, hcdef]
      have hp : ∀ a : UserDoc, ((fun v => v._id == oid) a) = true →
          ((fun v => v._id == oid) ({ a with coins := c, updated_at := some now })) = true :=
        fun a ha => ha
      have hfind : (update_user_coins st u._id c now).usercoin.find? (fun v => v._id == oid)
          = some { u with coins := c, updated_at := some now } := by
        unfold update_user_coins
        rw [hido]
        rw [find?_updateFirst hp st.usercoin, hu, Option.map_some', hido]
      have hnn : (0 : Int) ≤ ({ u with coins := c, updated_at := some now } : UserDoc).coins := by
        rw [show ({ u with coins := c, updated_at := some now } : UserDoc).coins = c from rfl]
        rw [hclamp]
        exact le_max_left 0 (u.coins + d)
      rw [hsnd]
      obtain ⟨u', hfind', hcoins'⟩ := ih _ _ hfind hnn
        (fun x hx => hds x (List.mem_cons_of_mem _ hx))
      refine ⟨u', hfind', ?_⟩
      rw [hcoins', List.foldl_cons]
      rw [show ({ u with coins := c, updated_at := some now } : UserDoc).coins = c from rfl]
      rw [hclamp]

/-- Witness for C2: the spec scenario — one `-50` delta at balance 30 ends
at `max 0 (30 - 50) = 0`. -/
theorem add_coins_fold_clamp_witness :
    ∃ u', (run_adjusts balanceStore 0 0 [-50]).usercoin.find? (fun v => v._id == 0) = some u' ∧
      u'.coins = [(-50 : Int)].foldl (fun b d => max 0 (b + d))
        (UserDoc.mk 0 "u@x.com" "u" 30 none).coins :=
  add_coins_fold_clamp balanceStore 0 0 [-50]
    ⟨0, "u@x.com", "u", 30, none⟩ (by rfl) (by decide) (by decide)

/-- Counterexample for C7: the source strips every occurrence of
`"Bearer "`, not just a leading prefix. With the fixture session holding
token `"ab"`, the credential `"aBearer b"` authenticates (the code
canonicalises it to `"ab"`), yet no session token equals its spec-canonical
form `specStripToken "aBearer b" = "aBearer b"` — so the claimed
equivalence fails. -/
theorem bearer_replace_all_cex :
    ¬ ((∃ u, get_current_user fixtureStore (some "aBearer b") = .ok u) ↔
       (∃ s, s ∈ fixtureStore.session ∧ s.token = specStripToken "aBearer b")) := by
  intro hiff
  have hsucc : ∃ u, get_current_user fixtureStore (some "aBearer b") = .ok u :=
    ⟨fixtureUser, by rfl⟩
  obtain ⟨s, hs, htok⟩ := hiff.mp hsucc
  have hone : s = ⟨"ab", oidString 0, "a@x.com"⟩ := by
    simpa [fixtureStore] using hs
  rw [hone] at htok
  exact absurd htok (by decide)

/-- C7 (amended): `get_current_user` canonicalises the credential by
removing every occurrence of the substring `"Bearer "` and stripping
surrounding whitespace (`pyStripToken`), and authentication on a supplied
credential succeeds iff the credential is non-empty, some stored session's
token equals that canonical form (first match), and that session's
`user_id` resolves to a user. -/
theorem get_current_user_token_match_iff (st : Store) (a : String) :
    (∃ u, get_current_user st (some a) = .ok u) ↔
      (a ≠ "" ∧ ∃ s, st.session.find? (fun x => x.token == pyStripToken a) = some s ∧
        (_get_user_by_id st s.user_id).isSome = true) := by
  by_cases ha : a = ""
  · subst ha
    constructor
    · rintro ⟨u, hu⟩
      simp [get_current_user] at hu
    · rintro ⟨h, _⟩
      exact absurd rfl h
  · have ha2 : (a == "") = false := beq_eq_false_iff_ne.mpr ha
    cases hfind : st.session.find? (fun x => x.token == pyStripToken a) with
    | none =>
      have hval : get_current_user st (some a) = .error ⟨401, "Invalid token"⟩ := by
        simp only [get_current_user, ha2, Bool.false_eq_true, if_false, hfind]
      constructor
      · rintro ⟨u, hu⟩
        rw [hval] at hu
        cases hu
      · rintro ⟨_, s, hs, _⟩
        cases hs
    | some s =>
      cases hres : _get_user_by_id st s.user_id with
      | none =>
        have hval : get_current_user st (some a) = .error ⟨401, "User not found for token"⟩ := by
          simp only [get_current_user, ha2, Bool.false_eq_true, if_false, hfind, hres]
        constructor
        · rintro ⟨u, hu⟩
          rw [hval] at hu
          cases hu
        · rintro ⟨_, s2, hs2, hsome⟩
          have hss : s = s2 := by injection hs2
          rw [← hss, hres] at hsome
          cases hsome
      | some u =>
        have hval : get_current_user st (some a) = .ok u := by
          simp only [get_current_user, ha2, Bool.false_eq_true, if_false, hfind, hres]
        constructor
        · intro _
          refine ⟨ha, s, rfl, ?_⟩
          rw [hres]
          rfl
        · intro _
          exact ⟨u, hval⟩

/-- Counterexample for C8: on a first login of `"a@x.com"` that supplies the
empty-string display name, the stored name is the email's local part `"a"`,
not the verbatim empty string — Python's `payload.name or ...` treats the
empty string as "not supplied" inside the core. -/
theorem empty_name_fallback_cex :
    ¬ ((login Store.empty "a@x.com" (some "") "tok" 0).map
        (fun p => p.2.usercoin.map (fun v => v.name)) = some [""]) := by
  intro h
  have h2 : (login Store.empty "a@x.com" (some "") "tok" 0).map
      (fun p => p.2.usercoin.map (fun v => v.name)) = some ["a"] := by rfl
  rw [h2] at h
  injection h with h
  exact absurd h (by decide)

/-- C8 (amended): inside the core the empty-string display name is treated
exactly like an absent one — `login` with `some ""` behaves identically to
`login` with `none` (local-part fallback on creation, no name-update write)
— while any non-empty supplied name, whitespace-only included, is compared
verbatim with the stored name and, when different, triggers the one
name-and-`updated_at` update write. -/
theorem login_name_policy (st : Store) (e tok : String) (now : Nat) :
    (login st e (some "") tok now = login st e none tok now) ∧
    (∀ u n, _get_user_by_email st e = some u → n ≠ "" → n ≠ u.name →
      ∃ r st', login st e (some n) tok now = some (r, st') ∧
        st'.usercoin = updateFirst (fun v => v._id == u._id)
          (fun v => { v with name := n, updated_at := some now }) st.usercoin) := by
  constructor
  · simp [login, login_lookup_or_create, login_maybe_update_name, pyOrElse, nameUpdateNeeded]
  · intro u n hu hne hnn
    have h1 : login_lookup_or_create st e (some n) = (some u, st) := by
      unfold login_lookup_or_create
      rw [hu]
    have hcond : nameUpdateNeeded (some n) u.name = true := by
      simp [nameUpdateNeeded, hne, hnn]
    have hq : ∀ v : UserDoc,
        (({ v with name := n, updated_at := some now } : UserDoc).email == e)
          = (v.email == e) := fun v => rfl
    have hu' : List.find? (fun w => w.email == e) st.usercoin = some u := hu
    obtain ⟨v, hv, hvu⟩ := find?_updateFirst_of_preserve (fun w => w._id == u._id)
      (fun w => { w with name := n, updated_at := some now }) hq hu'
    have h2 : login_maybe_update_name st e (some n) u now
        = (some v, update_user_name st u._id n now) := by
      unfold login_maybe_update_name
      rw [hcond]
      simp only [if_true, Option.getD_some, Prod.mk.injEq]
      exact ⟨hv, trivial⟩
    refine ⟨⟨(_create_or_get_session (update_user_name st u._id n now) v tok).1,
        v.email, v.name, v.coins⟩,
      (_create_or_get_session (update_user_name st u._id n now) v tok).2, ?_, ?_⟩
    · unfold login
      rw [h1]
      dsimp only []
      rw [h2]
    · exact create_or_get_session_usercoin (update_user_name st u._id n now) v tok
